import Mathlib

/-!
Verification of the strava-client library (TypeScript) against its
natural-language specification.  The definitions below are a shallow
embedding of the functions in `src/client.ts`, the error module embedded at
the end of `src/client.test.ts`, and the webhook helpers of the client
version in `src/unnamed/part_002`.  JavaScript numbers that can be `NaN` or
`undefined` are modelled by the inductive `JsNum`; nullable values by
`Option`; thrown exceptions by `Except`.
-/

namespace StravaSpec

/-- A JavaScript number cell as it can appear in the rate-limit snapshot:
an actual (integer) number, `NaN`, or `undefined` (from destructuring a
too-short array). -/
inductive JsNum where
  | num (v : Int)
  | nan
  | undef
deriving DecidableEq, Repr

/-- Value of a list of decimal digit characters. -/
def digitsVal (l : List Char) : Nat :=
  l.foldl (fun a c => a * 10 + (c.toNat - 48)) 0

/-- JavaScript `Number(s)` restricted to the string shapes this client meets:
the empty string converts to `0`, a non-empty all-digit string to its decimal
value, anything else to `NaN`. -/
def jsNumber (s : String) : JsNum :=
  if s = "" then .num 0
  else if s.toList.all Char.isDigit then .num (digitsVal s.toList)
  else .nan

/-- JavaScript `parseInt(s)` restricted to the shapes this client meets: the
longest leading run of digits, `NaN` (here `JsNum.nan`) when there is none. -/
def jsParseInt (s : String) : JsNum :=
  let digits := s.toList.takeWhile Char.isDigit
  if digits.isEmpty then .nan else .num (digitsVal digits)

/-- Response headers: a name/value list, looked up by exact name
(`Headers.get` in the sources always uses the lower-case names). -/
def hdrGet (headers : List (String × String)) (k : String) : Option String :=
  (headers.find? (fun kv => kv.1 = k)).map (fun kv => kv.2)

/-! ## Rate-limit snapshot (`updateRateLimitInfo`, src/client.ts:297-316) -/

/-- One window of `StravaRateLimitInfo` (src/types.ts). -/
structure RateBucket where
  usage : JsNum
  limit : JsNum
deriving DecidableEq, Repr

/-- The rate-limit snapshot `StravaRateLimitInfo` (src/types.ts). -/
structure RateLimitInfo where
  shortTerm : RateBucket
  longTerm : RateBucket
deriving DecidableEq, Repr

/-- `s.split(",")` on the character list: splitting at every comma, keeping
empty pieces (so the empty string yields `[""]`, as in JavaScript). -/
def splitCommaAux : List Char → List Char → List String
  | [], acc => [String.mk acc.reverse]
  | c :: rest, acc =>
    if c = ',' then String.mk acc.reverse :: splitCommaAux rest []
    else splitCommaAux rest (c :: acc)

def splitComma (s : String) : List String := splitCommaAux s.toList []

/-- `header.split(",").map(Number)` from `updateRateLimitInfo`. -/
def splitMapNumber (s : String) : List JsNum :=
  (splitComma s).map jsNumber

/-- Array destructuring `const [a, b] = l` of a JavaScript number array:
a missing element is `undefined`. -/
def destr2 (l : List JsNum) : JsNum × JsNum :=
  (l.getD 0 .undef, l.getD 1 .undef)

/-- `updateRateLimitInfo` (src/client.ts:297-316, identical in
src/unnamed/part_001 and part_002): when both the combined limit header and
the combined usage header are truthy, split each on commas, convert with
`Number`, and overwrite the whole snapshot; otherwise leave it alone. -/
def updateRateLimitInfo (headers : List (String × String))
    (prev : Option RateLimitInfo) : Option RateLimitInfo :=
  match hdrGet headers "x-ratelimit-limit", hdrGet headers "x-ratelimit-usage" with
  | some lh, some uh =>
    if lh ≠ "" ∧ uh ≠ "" then
      let lim := destr2 (splitMapNumber lh)
      let usg := destr2 (splitMapNumber uh)
      some ⟨⟨usg.1, lim.1⟩, ⟨usg.2, lim.2⟩⟩
    else prev
  | _, _ => prev

/-! ## Error taxonomy (`errors` module, embedded at src/client.test.ts:1340-1551) -/

/-- A `StravaError` instance: the base class carries `message`, `code` and an
optional `statusCode`; the `StravaRateLimitError` subclass adds `retryAfter`
(a parsed number, possibly `NaN`), `limit` and `usage` (raw header strings).
For every other class the three extra fields are `undefined` (`none`). -/
structure StravaError where
  message : String
  code : String
  statusCode : Option Nat
  retryAfter : Option JsNum
  limit : Option String
  usage : Option String
deriving DecidableEq, Repr

/-- `new StravaError(message, code, statusCode)`. -/
def mkStravaError (message code : String) (statusCode : Option Nat) : StravaError :=
  ⟨message, code, statusCode, none, none, none⟩

def StravaAuthenticationError (message : String) : StravaError :=
  mkStravaError message "STRAVA_AUTH_ERROR" (some 401)

def StravaAuthorizationError (message : String) : StravaError :=
  mkStravaError message "STRAVA_AUTHORIZATION_ERROR" (some 403)

def StravaNotFoundError (message : String) : StravaError :=
  mkStravaError message "STRAVA_NOT_FOUND" (some 404)

def StravaRateLimitError (message : String) (retryAfter : Option JsNum)
    (limit usage : Option String) : StravaError :=
  ⟨message, "STRAVA_RATE_LIMIT", some 429, retryAfter, limit, usage⟩

def StravaTokenRefreshError (message : String) : StravaError :=
  mkStravaError message "STRAVA_TOKEN_REFRESH_ERROR" (some 401)

def StravaValidationError (message : String) : StravaError :=
  mkStravaError message "STRAVA_VALIDATION_ERROR" (some 400)

def StravaNetworkError (message : String) : StravaError :=
  mkStravaError message "STRAVA_NETWORK_ERROR" none

def StravaApiError (message : String) (statusCode : Nat) : StravaError :=
  mkStravaError message "STRAVA_API_ERROR" (some statusCode)

/-- The `{status, data, headers, context}` object handed to
`parseStravaError` by the transport (a `StravaErrorResponse`).  `message?`
is `data.message` when the parsed body has a string `message` field. -/
structure ErrorResponse where
  status : Nat
  message? : Option String
  headers : List (String × String)
  context : Option String
deriving DecidableEq, Repr

/-- The `unknown` argument of `parseStravaError`: an already-classified
`StravaError`, a transport error-response object, a plain JavaScript
`Error`, or any other value (carried as its `String(value)` form). -/
inductive ParseInput where
  | stravaErr (e : StravaError)
  | response (r : ErrorResponse)
  | jsError (message : String)
  | unknownVal (str : String)
deriving DecidableEq, Repr

/-- `data?.message || "Request failed with status N"`: the body's message
when it is a present, non-empty string, else the template. -/
def respMessage (r : ErrorResponse) : String :=
  match r.message? with
  | some m => if m = "" then "Request failed with status " ++ toString r.status else m
  | none => "Request failed with status " ++ toString r.status

/-- `retryAfterHeader ? parseInt(retryAfterHeader) : undefined`. -/
def respRetryAfter (r : ErrorResponse) : Option JsNum :=
  match hdrGet r.headers "retry-after" with
  | none => none
  | some v => if v = "" then none else some (jsParseInt v)

/-- `context ? context + ": " + message : message` (empty context is falsy). -/
def withContext (context : Option String) (message : String) : String :=
  match context with
  | none => message
  | some c => if c = "" then message else c ++ ": " ++ message

/-- `parseStravaError` (src/client.test.ts:1463-1527): pass an existing
`StravaError` through; classify a transport error response by status with
429 checked first, then 401, 403, 404, 400, every status ≥ 500, and a
generic `STRAVA_HTTP_ERROR` (the only kind that takes the context prefix)
for anything else; wrap a plain `Error`; stringify anything else. -/
def parseStravaError : ParseInput → StravaError
  | .stravaErr e => e
  | .response r =>
    let message := respMessage r
    if r.status = 429 then
      StravaRateLimitError message (respRetryAfter r)
        (hdrGet r.headers "x-ratelimit-limit") (hdrGet r.headers "x-ratelimit-usage")
    else if r.status = 401 then
      StravaAuthenticationError message
    else if r.status = 403 then
      StravaAuthorizationError message
    else if r.status = 404 then
      StravaNotFoundError message
    else if r.status = 400 then
      StravaValidationError message
    else if 500 ≤ r.status then
      StravaApiError message r.status
    else
      mkStravaError (withContext r.context message) "STRAVA_HTTP_ERROR" (some r.status)
  | .jsError m => mkStravaError m "STRAVA_ERROR" none
  | .unknownVal s => mkStravaError s "STRAVA_UNKNOWN_ERROR" none

/-! ## Credential state and token lifecycle (src/client.ts:322-492) -/

/-- The `StravaTokens` record (src/types.ts). -/
structure StravaTokens where
  accessToken : String
  refreshToken : String
  expiresAt : Int
deriving DecidableEq, Repr

/-- The fields of `StravaTokenResponse` the client stores. -/
structure StravaTokenResponse where
  access_token : String
  refresh_token : String
  expires_at : Int
deriving DecidableEq, Repr

/-- The mutable client-instance state touched by the modelled operations,
instrumented with the number of network calls made and the arguments of
every `onTokenRefresh` invocation. -/
structure ClientState where
  tokens : Option StravaTokens
  rateLimitInfo : Option RateLimitInfo
  networkCalls : Nat
  callbackCalls : List StravaTokens
deriving DecidableEq, Repr

/-- `getAuthHeaders` (src/client.ts:284-292): `!this.tokens?.accessToken`
(absent tokens, or an empty access token, are falsy) throws a validation
error; otherwise the bearer header is built. -/
def getAuthHeaders (tokens : Option StravaTokens) :
    Except StravaError (List (String × String)) :=
  match tokens with
  | none => .error (StravaValidationError "No access token available. Please authenticate first.")
  | some t =>
    if t.accessToken = "" then
      .error (StravaValidationError "No access token available. Please authenticate first.")
    else
      .ok [("Authorization", "Bearer " ++ t.accessToken)]

/-- JavaScript truthiness of an optional string: `undefined` and `""` are
falsy. -/
def truthyStr : Option String → Option String
  | none => none
  | some s => if s = "" then none else some s

/-- `refreshToken || this.tokens?.refreshToken` (src/client.ts:415). -/
def tokenToRefresh (override : Option String) (tokens : Option StravaTokens) :
    Option String :=
  match truthyStr override with
  | some s => some s
  | none => truthyStr (tokens.map (fun t => t.refreshToken))

/-- `refreshAccessToken` (src/client.ts:414-448).  The OAuth token-endpoint
exchange is represented by the oracle `oauth` (its call is flagged
`skipRateLimit`, so the snapshot is never touched).  On success the stored
triple is overwritten and `onTokenRefresh` is invoked with the new tokens;
on failure the stored tokens are left unchanged. -/
def refreshAccessToken (st : ClientState) (override : Option String)
    (oauth : Except StravaError StravaTokenResponse) :
    Except StravaError StravaTokenResponse × ClientState :=
  match tokenToRefresh override st.tokens with
  | none => (.error (StravaTokenRefreshError "No refresh token available"), st)
  | some _ =>
    let st1 := { st with networkCalls := st.networkCalls + 1 }
    match oauth with
    | .error e => (.error e, st1)
    | .ok data =>
      let newTokens : StravaTokens := ⟨data.access_token, data.refresh_token, data.expires_at⟩
      (.ok data,
       { st1 with tokens := some newTokens,
                  callbackCalls := st1.callbackCalls ++ [newTokens] })

/-- `exchangeAuthorizationCode` (src/client.ts:384-409): one OAuth exchange
(`skipRateLimit`, so the snapshot is untouched), then the stored triple is
overwritten from the response.  No callback is invoked. -/
def exchangeAuthorizationCode (st : ClientState)
    (oauth : Except StravaError StravaTokenResponse) :
    Except StravaError StravaTokenResponse × ClientState :=
  let st1 := { st with networkCalls := st.networkCalls + 1 }
  match oauth with
  | .error e => (.error e, st1)
  | .ok data =>
    (.ok data,
     { st1 with tokens := some ⟨data.access_token, data.refresh_token, data.expires_at⟩ })

/-- `refreshTokenIfNeeded` (src/client.ts:454-475) for a single caller: a
no-op without stored tokens or when `expiresAt < now + refreshBuffer` fails;
otherwise one `refreshAccessToken`.  (The concurrent behaviour of the same
function is modelled separately below.) -/
def refreshTokenIfNeededSeq (st : ClientState) (now buffer : Int)
    (oauth : Except StravaError StravaTokenResponse) :
    Except StravaError Unit × ClientState :=
  match st.tokens with
  | none => (.ok (), st)
  | some t =>
    if t.expiresAt < now + buffer then
      let r := refreshAccessToken st none oauth
      match r.1 with
      | .error e => (.error e, r.2)
      | .ok _ => (.ok (), r.2)
    else (.ok (), st)

/-! ## The request pipeline (`request`, src/client.ts:86-171) -/

/-- A fetch response as the pipeline consumes it. -/
structure HttpResponse where
  ok : Bool
  status : Nat
  message? : Option String
  headers : List (String × String)
deriving DecidableEq, Repr

/-- `request` (src/client.ts:86-171), with the network modelled by the
`oauth` oracle (for a refresh triggered in step 1) and the `resp` oracle
(for the main fetch): auto-refresh when enabled, tokens exist and auth is
not skipped; then auth headers — a thrown validation error returns before
any fetch; then the fetch (counted), the rate-limit update, and either the
parsed body or the classified error. -/
def request (autoRefresh : Bool) (now buffer : Int) (skipAuth : Bool)
    (oauth : Except StravaError StravaTokenResponse) (resp : HttpResponse)
    (st : ClientState) : Except StravaError HttpResponse × ClientState :=
  let pre :=
    if autoRefresh && st.tokens.isSome && !skipAuth then
      refreshTokenIfNeededSeq st now buffer oauth
    else (.ok (), st)
  match pre with
  | (.error e, st1) => (.error e, st1)
  | (.ok _, st1) =>
    match (if skipAuth then .ok [] else getAuthHeaders st1.tokens) with
    | .error e => (.error e, st1)
    | .ok _ =>
      let st2 := { st1 with networkCalls := st1.networkCalls + 1 }
      let st3 := { st2 with rateLimitInfo := updateRateLimitInfo resp.headers st2.rateLimitInfo }
      if resp.ok then (.ok resp, st3)
      else
        (.error (parseStravaError (.response ⟨resp.status, resp.message?, resp.headers, none⟩)),
         st3)

/-! ## Timeout selection (src/client.ts:130-132 and 240-242) -/

def DEFAULT_TIMEOUT : Nat := 30000

/-- The delay armed on the abort controller inside `request`
(src/client.ts:132): the constant `DEFAULT_TIMEOUT`; neither the configured
client timeout nor any per-call value is consulted. -/
def requestArmedTimeout (_configTimeout : Nat) : Nat := DEFAULT_TIMEOUT

/-- The delay armed inside `fetchWithTimeout` (src/client.ts:241):
`options.timeout ?? this.config.timeout`. -/
def fetchArmedTimeout (configTimeout : Nat) (override : Option Nat) : Nat :=
  override.getD configTimeout

/-- The fetch raced against the armed abort timer: it resolves iff it
settles strictly before the timer fires; an abort surfaces as `AbortError`,
rethrown as a Network-kind "Request timed out" error (src/client.ts:161-163
and 272-274). -/
def fetchOutcome (armed : Nat) (resolveAt : Option Nat) : Except StravaError Unit :=
  match resolveAt with
  | some tm => if tm < armed then .ok () else .error (StravaNetworkError "Request timed out")
  | none => .error (StravaNetworkError "Request timed out")

/-! ## Reference semantics of `setTokens`/`getTokens` (src/client.ts:325-334)

JavaScript objects are references into a store; the store is a list of
token records and a reference is an index.  `setTokens` stores the caller's
reference (`this.tokens = tokens`) and `getTokens` returns the stored
reference itself (`return this.tokens`) — neither takes a copy. -/

def setTokensRef (r : Nat) : Option Nat := some r

def getTokensRef (field : Option Nat) : Option Nat := field

/-- `obj.accessToken = v` through a reference. -/
def storeWriteAccess (store : List StravaTokens) (r : Nat) (v : String) :
    List StravaTokens :=
  match store.get? r with
  | some t => store.set r { t with accessToken := v }
  | none => store

/-- Reading `obj.accessToken` through a reference. -/
def storeReadAccess (store : List StravaTokens) (r? : Option Nat) : Option String :=
  match r? with
  | none => none
  | some r => (store.get? r).map (fun t => t.accessToken)

/-! ## Pagination (`iterateActivities`, src/client.ts:564-591) -/

/-- The loop condition under which a fetched page is the last one: the page
is empty, or shorter than the requested page size. -/
abbrev lastPage {α : Type} (l : List α) (perPage : Nat) : Prop :=
  l.length = 0 ∨ l.length < perPage

/-- The `while (hasMore)` loop of `iterateActivities`
(src/client.ts:564-591), fuelled: fetch the current page; an empty page
yields nothing and stops; a short page yields its elements and stops; a
full page yields its elements and continues with the next page number.
Returns the elements in fetch order together with the list of page numbers
requested. -/
def iterateActivities {α : Type} (fetch : Nat → List α) (perPage : Nat) :
    Nat → Nat → List α × List Nat
  | 0, _page => ([], [])
  | fuel + 1, page =>
    let activities := fetch page
    if activities.length = 0 then ([], [page])
    else if activities.length < perPage then (activities, [page])
    else
      let rest := iterateActivities fetch perPage fuel (page + 1)
      (activities ++ rest.1, page :: rest.2)

/-- `getAllActivities` (src/client.ts:544-552): drain the iterator from
page 1 into one eager list. -/
def getAllActivities {α : Type} (fetch : Nat → List α) (perPage fuel : Nat) : List α :=
  (iterateActivities fetch perPage fuel 1).1

/-- The stub page-fetch of the pagination property: `[a, b]`, then `[c]`,
then `[]`, for page size 2 (with `a, b, c = 10, 20, 30`). -/
def pagesAB : Nat → List Nat :=
  fun p => if p = 1 then [10, 20] else if p = 2 then [30] else []

/-! ## Webhook event parsing (`parseWebhookEvent`, src/unnamed/part_002:1229-1257) -/

/-- A JavaScript value as `typeof` distinguishes what the validator needs:
a string, a number, or anything else. -/
inductive JsValue where
  | str (s : String)
  | num (v : Int)
  | other
deriving DecidableEq, Repr

/-- A webhook POST payload: each required field either present (with some
value) or missing.  The optional `updates` map is never inspected by the
parser and is omitted. -/
structure WebhookPayload where
  object_type : Option JsValue
  object_id : Option JsValue
  aspect_type : Option JsValue
  owner_id : Option JsValue
  subscription_id : Option JsValue
  event_time : Option JsValue
deriving DecidableEq, Repr

/-- `parseWebhookEvent` (src/unnamed/part_002:1229-1257): the six `typeof`
checks (a missing field has `typeof undefined` and fails), then the two
closed-enum checks; every failure throws the same validation error, success
returns the payload itself. -/
def parseWebhookEvent (p : WebhookPayload) : Except StravaError WebhookPayload :=
  match p.object_type, p.object_id, p.aspect_type, p.owner_id,
        p.subscription_id, p.event_time with
  | some (.str ot), some (.num _), some (.str asp), some (.num _),
    some (.num _), some (.num _) =>
    if ot = "activity" ∨ ot = "athlete" then
      if asp = "create" ∨ asp = "update" ∨ asp = "delete" then
        .ok p
      else .error (StravaValidationError "Invalid webhook event payload")
    else .error (StravaValidationError "Invalid webhook event payload")
  | _, _, _, _, _, _ => .error (StravaValidationError "Invalid webhook event payload")

/-- A payload on which `parseWebhookEvent` succeeds: all six required
fields present with the required `typeof`, and both enums in range. -/
def wellFormedEvent (p : WebhookPayload) : Prop :=
  (∃ s, p.object_type = some (.str s) ∧ (s = "activity" ∨ s = "athlete")) ∧
  (∃ v, p.object_id = some (.num v)) ∧
  (∃ s, p.aspect_type = some (.str s) ∧ (s = "create" ∨ s = "update" ∨ s = "delete")) ∧
  (∃ v, p.owner_id = some (.num v)) ∧
  (∃ v, p.subscription_id = some (.num v)) ∧
  (∃ v, p.event_time = some (.num v))

/-! ## Concurrent `refreshTokenIfNeeded` (src/client.ts:454-475)

JavaScript runs one client on a single logical thread: a caller of
`refreshTokenIfNeeded` executes atomically from entry up to its first
`await`, so the check of `this.refreshPromise` and the installation of a
new one happen in one indivisible segment — this synchronous check-then-
install is transcribed as the single `enter` steps below.  The states of
one caller:

* `entry`: the call has been made, its body not yet scheduled;
* `awaitingShared p`: the caller found marker `p` installed and awaits it;
* `awaitingOwn p`: the caller installed marker `p` (starting the network
  refresh in the same segment, inside `refreshAccessToken`) and awaits it;
* `done r`: returned (`r = none` for the no-tokens / not-due early returns,
  `some res` after awaiting a refresh promise that settled with `res`).

Shared state is the client's: the credential triple, the
`refreshPromise` marker (a promise id), how many refresh network calls
started, the settled promises with their outcomes, and a fresh-id counter.
The `settle` step resolves or rejects the in-flight promise (updating the
stored tokens on success, as the tail of `refreshAccessToken` does);
`resumeOwn` is the installer's continuation — its `finally` clears the
marker — and `resumeShared` a waiter's continuation.  The `enter` steps
carry the window guard `outcomes = []`: the relation ranges over exactly
the schedules in which every call enters before the refresh settles, the
formal reading of "N concurrent calls ... while the credentials are due". -/

abbrev RefreshOutcome := Except StravaError StravaTokens

instance : DecidableEq RefreshOutcome := fun a b =>
  match a, b with
  | .ok x, .ok y => if h : x = y then isTrue (by rw [h]) else isFalse (by simp [h])
  | .error x, .error y => if h : x = y then isTrue (by rw [h]) else isFalse (by simp [h])
  | .ok _, .error _ => isFalse (by simp)
  | .error _, .ok _ => isFalse (by simp)

inductive CallerSt where
  | entry
  | awaitingShared (pid : Nat)
  | awaitingOwn (pid : Nat)
  | done (r : Option RefreshOutcome)
deriving DecidableEq, Repr

structure Shared where
  tokens : Option StravaTokens
  marker : Option Nat
  calls : Nat
  outcomes : List (Nat × RefreshOutcome)
  nextPid : Nat
deriving DecidableEq, Repr

structure GState where
  shared : Shared
  callers : List CallerSt
deriving DecidableEq, Repr

def lookupOutcome (l : List (Nat × RefreshOutcome)) (p : Nat) : Option RefreshOutcome :=
  (l.find? (fun x => x.1 = p)).map (fun x => x.2)

/-- `shouldRefresh = this.tokens.expiresAt < now + this.config.refreshBuffer`
(src/client.ts:458). -/
def dueForRefresh (t : StravaTokens) (now buffer : Int) : Prop :=
  t.expiresAt < now + buffer

instance (t : StravaTokens) (now buffer : Int) : Decidable (dueForRefresh t now buffer) := by
  unfold dueForRefresh; infer_instance

/-- The stored credentials after the refresh promise settles with `res`:
overwritten on success, untouched on failure. -/
def tokensAfter (t : StravaTokens) : RefreshOutcome → Option StravaTokens
  | .ok tk => some tk
  | .error _ => some t

inductive StepC (now buffer : Int) : GState → GState → Prop where
  | enterNoTokens (g : GState) (i : Nat)
      (hc : g.callers.get? i = some .entry)
      (hw : g.shared.outcomes = [])
      (ht : g.shared.tokens = none) :
      StepC now buffer g ⟨g.shared, g.callers.set i (.done none)⟩
  | enterFresh (g : GState) (i : Nat) (t : StravaTokens)
      (hc : g.callers.get? i = some .entry)
      (hw : g.shared.outcomes = [])
      (ht : g.shared.tokens = some t)
      (hdue : ¬ dueForRefresh t now buffer) :
      StepC now buffer g ⟨g.shared, g.callers.set i (.done none)⟩
  | enterAwait (g : GState) (i : Nat) (t : StravaTokens) (p : Nat)
      (hc : g.callers.get? i = some .entry)
      (hw : g.shared.outcomes = [])
      (ht : g.shared.tokens = some t)
      (hdue : dueForRefresh t now buffer)
      (hm : g.shared.marker = some p) :
      StepC now buffer g ⟨g.shared, g.callers.set i (.awaitingShared p)⟩
  | enterInstall (g : GState) (i : Nat) (t : StravaTokens)
      (hc : g.callers.get? i = some .entry)
      (hw : g.shared.outcomes = [])
      (ht : g.shared.tokens = some t)
      (hdue : dueForRefresh t now buffer)
      (hm : g.shared.marker = none)
      (hrt : t.refreshToken ≠ "") :
      StepC now buffer g
        ⟨{ g.shared with marker := some g.shared.nextPid,
                         calls := g.shared.calls + 1,
                         nextPid := g.shared.nextPid + 1 },
         g.callers.set i (.awaitingOwn g.shared.nextPid)⟩
  | enterInstallRejected (g : GState) (i : Nat) (t : StravaTokens)
      (hc : g.callers.get? i = some .entry)
      (hw : g.shared.outcomes = [])
      (ht : g.shared.tokens = some t)
      (hdue : dueForRefresh t now buffer)
      (hm : g.shared.marker = none)
      (hrt : t.refreshToken = "") :
      StepC now buffer g
        ⟨{ g.shared with marker := some g.shared.nextPid,
                         outcomes := (g.shared.nextPid,
                            .error (StravaTokenRefreshError "No refresh token available"))
                            :: g.shared.outcomes,
                         nextPid := g.shared.nextPid + 1 },
         g.callers.set i (.awaitingOwn g.shared.nextPid)⟩
  | settle (g : GState) (p : Nat) (res : RefreshOutcome)
      (hm : g.shared.marker = some p)
      (hu : lookupOutcome g.shared.outcomes p = none) :
      StepC now buffer g
        ⟨{ g.shared with outcomes := (p, res) :: g.shared.outcomes,
                         tokens := match res with
                                   | .ok tk => some tk
                                   | .error _ => g.shared.tokens },
         g.callers⟩
  | resumeOwn (g : GState) (i : Nat) (p : Nat) (res : RefreshOutcome)
      (hc : g.callers.get? i = some (.awaitingOwn p))
      (hs : lookupOutcome g.shared.outcomes p = some res) :
      StepC now buffer g
        ⟨{ g.shared with marker := none }, g.callers.set i (.done (some res))⟩
  | resumeShared (g : GState) (i : Nat) (p : Nat) (res : RefreshOutcome)
      (hc : g.callers.get? i = some (.awaitingShared p))
      (hs : lookupOutcome g.shared.outcomes p = some res) :
      StepC now buffer g ⟨g.shared, g.callers.set i (.done (some res))⟩

/-- `n` concurrent callers about to run, credentials `t` stored, no refresh
in flight. -/
def initG (t : StravaTokens) (n : Nat) : GState :=
  ⟨⟨some t, none, 0, [], 0⟩, List.replicate n .entry⟩

def isOwn : CallerSt → Bool
  | .awaitingOwn _ => true
  | _ => false

def countOwn (l : List CallerSt) : Nat := l.countP isOwn

/-- The phase invariant of a run from `initG t n`: before any install
(A), installed and unsettled (B), settled with the marker still set (C),
settled and cleared (D).  In B and C exactly one caller is the installer. -/
inductive Inv (t : StravaTokens) : GState → Prop where
  | phaseA (g : GState)
      (hs : g.shared = ⟨some t, none, 0, [], 0⟩)
      (hcs : ∀ c ∈ g.callers, c = .entry) : Inv t g
  | phaseB (g : GState)
      (hs : g.shared = ⟨some t, some 0, 1, [], 1⟩)
      (hcs : ∀ c ∈ g.callers, c = .entry ∨ c = .awaitingShared 0 ∨ c = .awaitingOwn 0)
      (hown : countOwn g.callers = 1) : Inv t g
  | phaseC (g : GState) (res : RefreshOutcome)
      (hs : g.shared = ⟨tokensAfter t res, some 0, 1, [(0, res)], 1⟩)
      (hcs : ∀ c ∈ g.callers,
        c = .entry ∨ c = .awaitingShared 0 ∨ c = .awaitingOwn 0 ∨ c = .done (some res))
      (hown : countOwn g.callers = 1) : Inv t g
  | phaseD (g : GState) (res : RefreshOutcome)
      (hs : g.shared = ⟨tokensAfter t res, none, 1, [(0, res)], 1⟩)
      (hcs : ∀ c ∈ g.callers,
        c = .entry ∨ c = .awaitingShared 0 ∨ c = .done (some res)) : Inv t g

/-! ## Concrete instances used by the witnesses and counterexamples -/

/-- A snapshot already held before a malformed-header response arrives. -/
def rlPrior : RateLimitInfo := ⟨⟨.num 1, .num 100⟩, ⟨.num 2, .num 1000⟩⟩

/-- The 429 response of the error-classification property: retry-after 900,
limit `"100,1000"`, usage `"100,500"`. -/
def respC6 : ErrorResponse :=
  ⟨429, some "Rate limit exceeded",
   [("retry-after", "900"), ("x-ratelimit-limit", "100,1000"),
    ("x-ratelimit-usage", "100,500")], none⟩

/-- The token object of the defensive-copy test (src/client.test.ts:53-69). -/
def tkOriginal : StravaTokens := ⟨"access-123", "refresh-456", 9999⟩

/-- A client that holds no tokens. -/
def stNoTok : ClientState := ⟨none, none, 0, []⟩

/-- A client holding a credential triple about to be replaced. -/
def stWithTok : ClientState := ⟨some ⟨"old-access", "old-refresh", 100⟩, none, 0, []⟩

/-- A successful fetch response without rate-limit headers. -/
def resp200 : HttpResponse := ⟨true, 200, none, []⟩

/-- A token-endpoint response body. -/
def tokenResp : StravaTokenResponse := ⟨"new-access", "new-refresh", 5000⟩

/-- A well-formed webhook event payload. -/
def wfPayload : WebhookPayload :=
  ⟨some (.str "activity"), some (.num 100), some (.str "create"),
   some (.num 7), some (.num 3), some (.num 1700000000)⟩

/-- The expiring credential triple of the concurrent-refresh run. -/
def cT0 : StravaTokens := ⟨"expiring-token", "refresh-token", 100⟩

/-- The refreshed credential triple of the concurrent-refresh run. -/
def cT1 : StravaTokens := ⟨"new-access", "new-refresh", 5000⟩

/-- The final state of the two-caller concurrent-refresh run: one network
call, marker cleared, both callers done with the refreshed credentials. -/
def cFinal : GState :=
  ⟨⟨some cT1, none, 1, [(0, .ok cT1)], 1⟩,
   [.done (some (.ok cT1)), .done (some (.ok cT1))]⟩

/-! # Theorems -/

/-- Claim C9: `parseStravaError` is total and idempotent — every input is
mapped to a `StravaError` (an unrecognized non-`Error` value becomes the
generic `STRAVA_UNKNOWN_ERROR` carrying the value's string form), an
already-classified error passes through unchanged, and re-applying the
classifier to its own result is the identity. -/
theorem parseStravaError_total_idempotent :
    (∀ e : StravaError, parseStravaError (.stravaErr e) = e) ∧
    (∀ s : String,
      parseStravaError (.unknownVal s) = mkStravaError s "STRAVA_UNKNOWN_ERROR" none) ∧
    (∀ x : ParseInput,
      parseStravaError (.stravaErr (parseStravaError x)) = parseStravaError x) :=
  ⟨fun _ => rfl, fun _ => rfl, fun _ => rfl⟩

/-- Claim C6: `parseStravaError` maps an HTTP error response to exactly one
error kind by status — 401 Authentication, 403 Authorization, 404 NotFound,
429 RateLimit carrying the retry-after (as parsed by `parseInt`), limit and
usage header values, 400 Validation, every status ≥ 500 Api with the status
preserved, anything else the generic HTTP error; the message is the body's
(non-empty) message field when present and the template otherwise, and the
context label prefixes the message only in the generic HTTP-error kind. -/
theorem parseStravaError_status_mapping (r : ErrorResponse) :
    (r.status = 401 →
      parseStravaError (.response r) = StravaAuthenticationError (respMessage r)) ∧
    (r.status = 403 →
      parseStravaError (.response r) = StravaAuthorizationError (respMessage r)) ∧
    (r.status = 404 →
      parseStravaError (.response r) = StravaNotFoundError (respMessage r)) ∧
    (r.status = 429 →
      parseStravaError (.response r) =
        StravaRateLimitError (respMessage r) (respRetryAfter r)
          (hdrGet r.headers "x-ratelimit-limit") (hdrGet r.headers "x-ratelimit-usage")) ∧
    (r.status = 400 →
      parseStravaError (.response r) = StravaValidationError (respMessage r)) ∧
    (500 ≤ r.status →
      parseStravaError (.response r) = StravaApiError (respMessage r) r.status) ∧
    (r.status ∉ ([400, 401, 403, 404, 429] : List Nat) → r.status < 500 →
      parseStravaError (.response r) =
        mkStravaError (withContext r.context (respMessage r)) "STRAVA_HTTP_ERROR"
          (some r.status)) ∧
    (∀ m, r.message? = some m → m ≠ "" → respMessage r = m) ∧
    (r.message? = none →
      respMessage r = "Request failed with status " ++ toString r.status) := by
  refine ⟨?_, ?_, ?_, ?_, ?_, ?_, ?_, ?_, ?_⟩
  · intro h; simp [parseStravaError, h]
  · intro h; simp [parseStravaError, h]
  · intro h; simp [parseStravaError, h]
  · intro h; simp [parseStravaError, h]
  · intro h; simp [parseStravaError, h]
  · intro h
    have h1 : r.status ≠ 429 := by omega
    have h2 : r.status ≠ 401 := by omega
    have h3 : r.status ≠ 403 := by omega
    have h4 : r.status ≠ 404 := by omega
    have h5 : r.status ≠ 400 := by omega
    simp [parseStravaError, h1, h2, h3, h4, h5, h]
  · intro h h0
    simp at h
    obtain ⟨h5, h1, h3, h4, h9⟩ := h
    have h6 : ¬ (500 ≤ r.status) := by omega
    simp [parseStravaError, h1, h3, h4, h5, h9, h6]
  · intro m hm hne; simp [respMessage, hm, hne]
  · intro hm; simp [respMessage, hm]

/-- Witness for C6 at the specified 429 response: the rate-limit error
carries retry-after 900 and the two header strings verbatim. -/
theorem parseStravaError_status_mapping_witness :
    parseStravaError (.response respC6) =
      StravaRateLimitError "Rate limit exceeded" (some (.num 900))
        (some "100,1000") (some "100,500") := by
  have h := (parseStravaError_status_mapping respC6).2.2.2.1 rfl
  rw [h]; decide

/-- Counterexample to claim C3: a malformed limit header (`"abc"`) together
with a well-formed usage header does not leave the previous snapshot
untouched — `updateRateLimitInfo` overwrites it with `NaN`/`undefined`
entries. -/
theorem updateRateLimitInfo_malformed_overwrites :
    updateRateLimitInfo
        [("x-ratelimit-limit", "abc"), ("x-ratelimit-usage", "1,2")]
        (some rlPrior) ≠ some rlPrior ∧
    updateRateLimitInfo
        [("x-ratelimit-limit", "abc"), ("x-ratelimit-usage", "1,2")]
        (some rlPrior) =
      some ⟨⟨.num 1, .nan⟩, ⟨.num 2, .undef⟩⟩ := by
  constructor
  · decide
  · decide

/-- Claim C3 as amended: `updateRateLimitInfo` overwrites the snapshot
exactly when both headers are present and non-empty — the values are the
comma-split `Number`-converted pieces, which may be `NaN` or `undefined`
when a header is malformed; if either header is absent or empty the
previous snapshot (including absent) is left completely untouched, and an
update is always a complete overwrite (never partial). -/
theorem updateRateLimitInfo_amended (headers : List (String × String))
    (prev : Option RateLimitInfo) :
    (∀ lh uh, hdrGet headers "x-ratelimit-limit" = some lh →
      hdrGet headers "x-ratelimit-usage" = some uh → lh ≠ "" → uh ≠ "" →
      updateRateLimitInfo headers prev =
        some ⟨⟨(splitMapNumber uh).getD 0 .undef, (splitMapNumber lh).getD 0 .undef⟩,
              ⟨(splitMapNumber uh).getD 1 .undef, (splitMapNumber lh).getD 1 .undef⟩⟩) ∧
    ((hdrGet headers "x-ratelimit-limit" = none ∨
      hdrGet headers "x-ratelimit-usage" = none ∨
      hdrGet headers "x-ratelimit-limit" = some "" ∨
      hdrGet headers "x-ratelimit-usage" = some "") →
      updateRateLimitInfo headers prev = prev) := by
  constructor
  · intro lh uh h1 h2 hn1 hn2
    simp [updateRateLimitInfo, h1, h2, hn1, hn2, destr2]
  · intro h
    rcases h with h | h | h | h <;> simp [updateRateLimitInfo, h] <;>
      cases hu : hdrGet headers "x-ratelimit-usage" <;>
      cases hl : hdrGet headers "x-ratelimit-limit" <;> simp_all

/-- Witness for the amended C3: well-formed headers overwrite an absent
snapshot with the parsed pairs. -/
theorem updateRateLimitInfo_amended_witness :
    updateRateLimitInfo
        [("x-ratelimit-limit", "100,1000"), ("x-ratelimit-usage", "50,200")] none =
      some ⟨⟨.num 50, .num 100⟩, ⟨.num 200, .num 1000⟩⟩ := by
  have h := (updateRateLimitInfo_amended
      [("x-ratelimit-limit", "100,1000"), ("x-ratelimit-usage", "50,200")] none).1
      "100,1000" "50,200" (by decide) (by decide) (by decide) (by decide)
  rw [h]; decide

/-- Claim C4 (code bug): on the `request` path the abort timer is armed
with the constant `DEFAULT_TIMEOUT` (30000 ms) even when the client is
configured with timeout 5000 ms, so a fetch settling at 10000 ms succeeds
where the claimed behaviour (configured default, as `fetchWithTimeout`
implements with `options.timeout ?? this.config.timeout`) cancels it with
the Network-kind "Request timed out" error. -/
theorem requestTimeout_ignores_config :
    requestArmedTimeout 5000 = 30000 ∧
    fetchArmedTimeout 5000 none = 5000 ∧
    fetchOutcome (requestArmedTimeout 5000) (some 10000) = .ok () ∧
    fetchOutcome (fetchArmedTimeout 5000 none) (some 10000) =
      .error (StravaNetworkError "Request timed out") :=
  ⟨rfl, rfl, rfl, rfl⟩

/-- Claim C2 (code bug): `getTokens` returns the stored object reference
itself, so the mutation `retrieved.accessToken = "mutated-token"` performed
by the repository's own test (src/client.test.ts:53-69) is visible through
the next `getTokens` — the test's expected value `"access-123"` is not what
the code yields. -/
theorem getTokens_returns_reference :
    getTokensRef (setTokensRef 0) = some 0 ∧
    storeReadAccess (storeWriteAccess [tkOriginal] 0 "mutated-token")
        (getTokensRef (setTokensRef 0)) = some "mutated-token" ∧
    storeReadAccess (storeWriteAccess [tkOriginal] 0 "mutated-token")
        (getTokensRef (setTokensRef 0)) ≠ some "access-123" := by
  refine ⟨rfl, by decide, by decide⟩

/-- Claim C7: an auth-requiring request (`skipAuth` not set) made while no
tokens are stored fails with the Validation-kind "No access token
available" error thrown by the header-building step, the client state is
returned untouched — in particular zero network calls occur. -/
theorem request_noToken_validation (autoRefresh : Bool) (now buffer : Int)
    (oauth : Except StravaError StravaTokenResponse) (resp : HttpResponse)
    (st : ClientState) (h : st.tokens = none) :
    request autoRefresh now buffer false oauth resp st =
      (.error (StravaValidationError "No access token available. Please authenticate first."),
       st) ∧
    (request autoRefresh now buffer false oauth resp st).2.networkCalls = st.networkCalls := by
  have hmain : request autoRefresh now buffer false oauth resp st =
      (.error (StravaValidationError "No access token available. Please authenticate first."),
       st) := by
    simp [request, h, getAuthHeaders]
  exact ⟨hmain, by rw [hmain]⟩

/-- Witness for C7: a tokenless client, a live fetch oracle, zero calls. -/
theorem request_noToken_validation_witness :
    request true 1000 600 false (.ok tokenResp) resp200 stNoTok =
      (.error (StravaValidationError "No access token available. Please authenticate first."),
       stNoTok) ∧
    (request true 1000 600 false (.ok tokenResp) resp200 stNoTok).2.networkCalls = 0 := by
  have h := request_noToken_validation true 1000 600 (.ok tokenResp) resp200 stNoTok rfl
  exact ⟨h.1, by rw [h.1]; rfl⟩

/-- Claim C10: a successful `exchangeAuthorizationCode` overwrites the
stored triple with the response's access token, refresh token and expiry
and makes exactly one network call, but never invokes `onTokenRefresh` and
leaves the rate-limit snapshot unchanged (also on failure); the callback is
invoked (with the new triple) by `refreshAccessToken`. -/
theorem exchangeAuthorizationCode_frame (st : ClientState) (data : StravaTokenResponse) :
    exchangeAuthorizationCode st (.ok data) =
      (.ok data,
       { st with tokens := some ⟨data.access_token, data.refresh_token, data.expires_at⟩,
                 networkCalls := st.networkCalls + 1 }) ∧
    (∀ oauth : Except StravaError StravaTokenResponse,
      (exchangeAuthorizationCode st oauth).2.callbackCalls = st.callbackCalls ∧
      (exchangeAuthorizationCode st oauth).2.rateLimitInfo = st.rateLimitInfo) ∧
    (∀ override rt0, tokenToRefresh override st.tokens = some rt0 →
      (refreshAccessToken st override (.ok data)).2.callbackCalls =
        st.callbackCalls ++ [⟨data.access_token, data.refresh_token, data.expires_at⟩]) := by
  refine ⟨rfl, ?_, ?_⟩
  · intro oauth
    cases oauth <;> exact ⟨rfl, rfl⟩
  · intro override rt h
    simp [refreshAccessToken, h]

/-- Witness for C10: a stored triple is replaced by the exchange, no
callback records appear; the refresh path does record one. -/
theorem exchangeAuthorizationCode_frame_witness :
    exchangeAuthorizationCode stWithTok (.ok tokenResp) =
      (.ok tokenResp,
       { stWithTok with tokens := some ⟨"new-access", "new-refresh", 5000⟩,
                        networkCalls := 1 }) ∧
    (exchangeAuthorizationCode stWithTok (.ok tokenResp)).2.callbackCalls = [] ∧
    (refreshAccessToken stWithTok none (.ok tokenResp)).2.callbackCalls =
      [⟨"new-access", "new-refresh", 5000⟩] := by
  have h := exchangeAuthorizationCode_frame stWithTok tokenResp
  refine ⟨h.1, (h.2.1 (.ok tokenResp)).1, ?_⟩
  have h3 := h.2.2 none "old-refresh" (by decide)
  simpa [stWithTok] using h3

/-- Claim C8: `parseWebhookEvent` returns its input unchanged for every
payload whose six required fields are present with the required types and
whose `object_type` and `aspect_type` lie in the closed enums, and fails
with the Validation-kind "Invalid webhook event payload" error for every
other payload — in particular when any required field is missing or an enum
value is out of range. -/
theorem parseWebhookEvent_correct (p : WebhookPayload) :
    (wellFormedEvent p → parseWebhookEvent p = .ok p) ∧
    (¬ wellFormedEvent p →
      parseWebhookEvent p =
        .error (StravaValidationError "Invalid webhook event payload")) := by
  have hcases : (parseWebhookEvent p = .ok p ∧ wellFormedEvent p) ∨
      (parseWebhookEvent p =
        .error (StravaValidationError "Invalid webhook event payload") ∧
       ¬ wellFormedEvent p) := by
    unfold parseWebhookEvent
    split
    next ot v1 asp v2 v3 v4 h1 h2 h3 h4 h5 h6 =>
      by_cases hot : ot = "activity" ∨ ot = "athlete"
      · by_cases hasp : asp = "create" ∨ asp = "update" ∨ asp = "delete"
        · exact Or.inl ⟨by simp [hot, hasp], ⟨ot, h1, hot⟩, ⟨v1, h2⟩, ⟨asp, h3, hasp⟩,
            ⟨v2, h4⟩, ⟨v3, h5⟩, ⟨v4, h6⟩⟩
        · refine Or.inr ⟨by simp [hot, hasp], ?_⟩
          rintro ⟨-, -, ⟨s, hs, henum⟩, -⟩
          rw [h3] at hs
          injection hs with hs
          injection hs with hs
          exact hasp (hs ▸ henum)
      · refine Or.inr ⟨by simp [hot], ?_⟩
        rintro ⟨⟨s, hs, henum⟩, -⟩
        rw [h1] at hs
        injection hs with hs
        injection hs with hs
        exact hot (hs ▸ henum)
    next hno =>
      refine Or.inr ⟨rfl, ?_⟩
      rintro ⟨⟨s1, hs1, -⟩, ⟨w1, hw1⟩, ⟨s2, hs2, -⟩, ⟨w2, hw2⟩, ⟨w3, hw3⟩, ⟨w4, hw4⟩⟩
      exact hno s1 w1 s2 w2 w3 w4 hs1 hw1 hs2 hw2 hw3 hw4
  constructor
  · intro hwf
    rcases hcases with ⟨hok, -⟩ | ⟨-, hnwf⟩
    · exact hok
    · exact absurd hwf hnwf
  · intro hnwf
    rcases hcases with ⟨-, hwf⟩ | ⟨herr, -⟩
    · exact absurd hwf hnwf
    · exact herr

/-- Witness for C8: a well-formed activity/create payload round-trips. -/
theorem parseWebhookEvent_correct_witness :
    parseWebhookEvent wfPayload = .ok wfPayload :=
  (parseWebhookEvent_correct wfPayload).1
    ⟨⟨"activity", rfl, Or.inl rfl⟩, ⟨100, rfl⟩, ⟨"create", rfl, Or.inl rfl⟩,
     ⟨7, rfl⟩, ⟨3, rfl⟩, ⟨1700000000, rfl⟩⟩

/-- If the first `n` fetched pages (starting at `page`) are neither empty
nor short and page `page + n` is, the loop requests exactly the pages
`page, …, page + n` in order and yields their elements in fetch order. -/
theorem iterateActivities_run {α : Type} (fetch : Nat → List α) (perPage : Nat) :
    ∀ (n fuel page : Nat),
      (∀ j, j < n → ¬ lastPage (fetch (page + j)) perPage) →
      lastPage (fetch (page + n)) perPage →
      n + 1 ≤ fuel →
      iterateActivities fetch perPage fuel page =
        (((List.range' page (n + 1)).map fetch).flatten, List.range' page (n + 1)) := by
  intro n
  induction n with
  | zero =>
    intro fuel page hfull hstop hfuel
    match fuel, hfuel with
    | fuel + 1, _ =>
      rw [Nat.add_zero] at hstop
      by_cases h0 : (fetch page).length = 0
      · have hemp : fetch page = [] := List.length_eq_zero.mp h0
        simp [iterateActivities, h0, List.range', hemp]
      · have hlt : (fetch page).length < perPage := by
          rcases hstop with h | h
          · exact absurd h h0
          · exact h
        simp [iterateActivities, h0, hlt, List.range']
  | succ n ih =>
    intro fuel page hfull hstop hfuel
    match fuel, hfuel with
    | fuel + 1, hfuel =>
      have hnot : ¬ lastPage (fetch page) perPage := by
        have := hfull 0 (Nat.succ_pos n)
        rwa [Nat.add_zero] at this
      have h0 : ¬ (fetch page).length = 0 := fun h => hnot (Or.inl h)
      have hge : ¬ (fetch page).length < perPage := fun h => hnot (Or.inr h)
      have hrec := ih fuel (page + 1)
        (fun j hj => by
          have := hfull (j + 1) (by omega)
          have heq : page + (j + 1) = page + 1 + j := by omega
          rwa [heq] at this)
        (by
          have heq : page + (n + 1) = page + 1 + n := by omega
          rwa [heq] at hstop)
        (by omega)
      have hr : List.range' page (n + 1 + 1) = page :: List.range' (page + 1) (n + 1) :=
        List.range'_succ page (n + 1) 1
      simp only [iterateActivities, h0, if_false, if_neg hge, hrec, hr]
      simp

/-- Claim C5: for every page-fetch function and page size, the pagination
loop requests pages 1, 2, … in order and stops exactly at the first page
that is empty or shorter than the page size: if the first stop happens at
page `n + 1`, the pages requested are precisely `1, …, n + 1` (no later
page is ever fetched) and the eager collection is their concatenation in
fetch order. -/
theorem iterateActivities_pagination {α : Type} (fetch : Nat → List α)
    (perPage n fuel : Nat)
    (hfull : ∀ j, j < n → ¬ lastPage (fetch (1 + j)) perPage)
    (hstop : lastPage (fetch (1 + n)) perPage)
    (hfuel : n + 1 ≤ fuel) :
    iterateActivities fetch perPage fuel 1 =
      (((List.range' 1 (n + 1)).map fetch).flatten, List.range' 1 (n + 1)) ∧
    getAllActivities fetch perPage fuel = ((List.range' 1 (n + 1)).map fetch).flatten := by
  have h := iterateActivities_run fetch perPage n fuel 1 hfull hstop hfuel
  exact ⟨h, by rw [getAllActivities, h]⟩

/-- Witness for C5: the stub returning `[10, 20]` then `[30]` with page
size 2 — the collection is `[10, 20, 30]` and exactly the pages 1 and 2 are
fetched (page 3 is never requested). -/
theorem iterateActivities_pagination_witness :
    iterateActivities pagesAB 2 10 1 = ([10, 20, 30], [1, 2]) ∧
    getAllActivities pagesAB 2 10 = [10, 20, 30] := by
  have h := iterateActivities_pagination pagesAB 2 1 10
    (fun j hj => by
      interval_cases j
      · decide)
    (by decide) (by omega)
  obtain ⟨h1, h2⟩ := h
  constructor
  · rw [h1]; decide
  · rw [h2]; decide

/-- An element of `l.set i b` is an element of `l` or is `b`. -/
theorem mem_of_mem_set {α : Type} :
    ∀ {l : List α} {i : Nat} {b a : α}, a ∈ l.set i b → a ∈ l ∨ a = b := by
  intro l
  induction l with
  | nil => intro i b a h; simp [List.set] at h
  | cons x xs ih =>
    intro i b a h
    cases i with
    | zero =>
      rcases List.mem_cons.mp h with h | h
      · exact Or.inr h
      · exact Or.inl (List.mem_cons_of_mem _ h)
    | succ n =>
      rcases List.mem_cons.mp h with h | h
      · exact Or.inl (h ▸ List.mem_cons_self x xs)
      · rcases ih h with h | h
        · exact Or.inl (List.mem_cons_of_mem _ h)
        · exact Or.inr h

/-- How `countP` changes when one known element is replaced. -/
theorem countP_set_eq {α : Type} (p : α → Bool) :
    ∀ (l : List α) (i : Nat) (a b : α), l.get? i = some a →
      (l.set i b).countP p + (if p a then 1 else 0) =
        l.countP p + (if p b then 1 else 0) := by
  intro l
  induction l with
  | nil => intro i a b h; simp at h
  | cons x xs ih =>
    intro i a b h
    cases i with
    | zero =>
      have hxa : x = a := by simpa using h
      subst hxa
      simp only [List.set, List.countP_cons]
      cases hb : p b <;> cases hx : p x <;> simp [hb, hx]
    | succ n =>
      have h2 : xs.get? n = some a := by simpa using h
      have h3 := ih n a b h2
      simp only [List.set, List.countP_cons]
      cases hx : p x <;> cases ha : p a <;> cases hb : p b <;>
        simp [hx, ha, hb] at h3 ⊢ <;> omega

@[simp] theorem isOwn_entry : isOwn .entry = false := rfl

@[simp] theorem isOwn_awaitingShared (p : Nat) : isOwn (.awaitingShared p) = false := rfl

@[simp] theorem isOwn_awaitingOwn (p : Nat) : isOwn (.awaitingOwn p) = true := rfl

@[simp] theorem isOwn_done (r : Option RefreshOutcome) : isOwn (.done r) = false := rfl

/-- `countP_set_eq` specialised to the installer count. -/
theorem countOwn_set_eq (l : List CallerSt) (i : Nat) (a b : CallerSt)
    (h : l.get? i = some a) :
    countOwn (l.set i b) + (if isOwn a then 1 else 0) =
      countOwn l + (if isOwn b then 1 else 0) :=
  countP_set_eq isOwn l i a b h

/-- The invariant holds initially. -/
theorem inv_init (t : StravaTokens) (n : Nat) : Inv t (initG t n) :=
  Inv.phaseA _ rfl (fun _ hc => List.eq_of_mem_replicate hc)

/-- The invariant is preserved by every step of a run whose initial
credentials are due for refresh and hold a non-empty refresh token. -/
theorem inv_step {now buffer : Int} {t : StravaTokens}
    (hdue0 : dueForRefresh t now buffer) (hrt0 : t.refreshToken ≠ "")
    {g g2 : GState} (hinv : Inv t g) (hstep : StepC now buffer g g2) : Inv t g2 := by
  cases hstep with
  | enterNoTokens i hc hw ht =>
    cases hinv with
    | phaseA hs hcs => rw [hs] at ht; simp at ht
    | phaseB hs hcs hown => rw [hs] at ht; simp at ht
    | phaseC res hs hcs hown => rw [hs] at ht; cases res <;> simp [tokensAfter] at ht
    | phaseD res hs hcs => rw [hs] at ht; cases res <;> simp [tokensAfter] at ht
  | enterFresh i t2 hc hw ht hdue2 =>
    cases hinv with
    | phaseA hs hcs =>
      rw [hs] at ht
      simp at ht
      exact absurd (ht ▸ hdue0) hdue2
    | phaseB hs hcs hown =>
      rw [hs] at ht
      simp at ht
      exact absurd (ht ▸ hdue0) hdue2
    | phaseC res hs hcs hown => rw [hs] at hw; simp at hw
    | phaseD res hs hcs => rw [hs] at hw; simp at hw
  | enterAwait i t2 p hc hw ht hdue2 hm =>
    cases hinv with
    | phaseA hs hcs => rw [hs] at hm; simp at hm
    | phaseB hs hcs hown =>
      rw [hs] at hm
      injection hm with hm
      subst hm
      rw [hs]
      refine Inv.phaseB _ rfl ?_ ?_
      · intro c hcm
        rcases mem_of_mem_set hcm with hcm | rfl
        · exact hcs c hcm
        · exact Or.inr (Or.inl rfl)
      · show countOwn (g.callers.set i (.awaitingShared 0)) = 1
        have hcount := countOwn_set_eq g.callers i CallerSt.entry (.awaitingShared 0) hc
        simp at hcount
        omega
    | phaseC res hs hcs hown => rw [hs] at hw; simp at hw
    | phaseD res hs hcs => rw [hs] at hw; simp at hw
  | enterInstall i t2 hc hw ht hdue2 hm hrt2 =>
    cases hinv with
    | phaseA hs hcs =>
      rw [hs]
      show Inv t ⟨⟨some t, some 0, 1, [], 1⟩, g.callers.set i (.awaitingOwn 0)⟩
      refine Inv.phaseB _ rfl ?_ ?_
      · intro c hcm
        rcases mem_of_mem_set hcm with hcm | rfl
        · exact Or.inl (hcs c hcm)
        · exact Or.inr (Or.inr rfl)
      · show countOwn (g.callers.set i (.awaitingOwn 0)) = 1
        have hzero : countOwn g.callers = 0 :=
          List.countP_eq_zero.mpr (fun c hcm => by rw [hcs c hcm]; simp)
        have hcount := countOwn_set_eq g.callers i CallerSt.entry (.awaitingOwn 0) hc
        simp at hcount
        omega
    | phaseB hs hcs hown => rw [hs] at hm; simp at hm
    | phaseC res hs hcs hown => rw [hs] at hw; simp at hw
    | phaseD res hs hcs => rw [hs] at hw; simp at hw
  | enterInstallRejected i t2 hc hw ht hdue2 hm hrt2 =>
    cases hinv with
    | phaseA hs hcs =>
      rw [hs] at ht
      simp at ht
      exact absurd (ht ▸ hrt2) hrt0
    | phaseB hs hcs hown => rw [hs] at hm; simp at hm
    | phaseC res hs hcs hown => rw [hs] at hw; simp at hw
    | phaseD res hs hcs => rw [hs] at hw; simp at hw
  | settle p res hm hu =>
    cases hinv with
    | phaseA hs hcs => rw [hs] at hm; simp at hm
    | phaseB hs hcs hown =>
      rw [hs] at hm
      injection hm with hm
      subst hm
      rw [hs]
      refine Inv.phaseC _ res (by cases res <;> rfl) ?_ ?_
      · intro c hcm
        rcases hcs c hcm with h | h | h
        · exact Or.inl h
        · exact Or.inr (Or.inl h)
        · exact Or.inr (Or.inr (Or.inl h))
      · exact hown
    | phaseC res0 hs hcs hown =>
      rw [hs] at hm hu
      injection hm with hm
      subst hm
      simp [lookupOutcome] at hu
    | phaseD res0 hs hcs => rw [hs] at hm; simp at hm
  | resumeOwn i p res hc hs2 =>
    cases hinv with
    | phaseA hs hcs =>
      have h := hcs _ (List.get?_mem hc)
      simp at h
    | phaseB hs hcs hown =>
      rw [hs] at hs2
      simp [lookupOutcome] at hs2
    | phaseC res0 hs hcs hown =>
      have hp : p = 0 := by
        rcases hcs _ (List.get?_mem hc) with h | h | h | h
        · simp at h
        · simp at h
        · injection h
        · simp at h
      subst hp
      rw [hs] at hs2
      simp [lookupOutcome] at hs2
      subst hs2
      rw [hs]
      refine Inv.phaseD _ res0 (by rfl) ?_
      have hcount := countOwn_set_eq g.callers i (.awaitingOwn 0) (.done (some res0)) hc
      simp at hcount
      have hzero : countOwn (g.callers.set i (.done (some res0))) = 0 := by omega
      intro c hcm
      rcases mem_of_mem_set hcm with hcm2 | rfl
      · rcases hcs c hcm2 with h | h | h | h
        · exact Or.inl h
        · exact Or.inr (Or.inl h)
        · exact absurd (by rw [h]; rfl : isOwn c = true)
            (by simpa using List.countP_eq_zero.mp hzero c hcm)
        · exact Or.inr (Or.inr h)
      · exact Or.inr (Or.inr rfl)
    | phaseD res0 hs hcs =>
      rcases hcs _ (List.get?_mem hc) with h | h | h <;> simp at h
  | resumeShared i p res hc hs2 =>
    cases hinv with
    | phaseA hs hcs =>
      have h := hcs _ (List.get?_mem hc)
      simp at h
    | phaseB hs hcs hown =>
      rw [hs] at hs2
      simp [lookupOutcome] at hs2
    | phaseC res0 hs hcs hown =>
      have hp : p = 0 := by
        rcases hcs _ (List.get?_mem hc) with h | h | h | h
        · simp at h
        · injection h
        · simp at h
        · simp at h
      subst hp
      rw [hs] at hs2
      simp [lookupOutcome] at hs2
      subst hs2
      rw [hs]
      refine Inv.phaseC _ res0 rfl ?_ ?_
      · intro c hcm
        rcases mem_of_mem_set hcm with hcm2 | rfl
        · exact hcs c hcm2
        · exact Or.inr (Or.inr (Or.inr rfl))
      · show countOwn (g.callers.set i (.done (some res0))) = 1
        have hcount := countOwn_set_eq g.callers i (.awaitingShared 0) (.done (some res0)) hc
        simp at hcount
        omega
    | phaseD res0 hs hcs =>
      have hp : p = 0 := by
        rcases hcs _ (List.get?_mem hc) with h | h | h
        · simp at h
        · injection h
        · simp at h
      subst hp
      rw [hs] at hs2
      simp [lookupOutcome] at hs2
      subst hs2
      rw [hs]
      refine Inv.phaseD _ res0 rfl ?_
      intro c hcm
      rcases mem_of_mem_set hcm with hcm2 | rfl
      · exact hcs c hcm2
      · exact Or.inr (Or.inr rfl)

/-- The invariant holds in every reachable state. -/
theorem inv_reach {now buffer : Int} {t : StravaTokens} {n : Nat} {g : GState}
    (hdue0 : dueForRefresh t now buffer) (hrt0 : t.refreshToken ≠ "")
    (h : Relation.ReflTransGen (StepC now buffer) (initG t n) g) : Inv t g := by
  induction h with
  | refl => exact inv_init t n
  | tail hsteps hstep ih => exact inv_step hdue0 hrt0 ih hstep

/-- Steps preserve the number of callers. -/
theorem stepC_length {now buffer : Int} {g g2 : GState} (h : StepC now buffer g g2) :
    g2.callers.length = g.callers.length := by
  cases h <;> simp

/-- Every reachable state still has all `n` callers. -/
theorem reach_length {now buffer : Int} {t : StravaTokens} {n : Nat} {g : GState}
    (h : Relation.ReflTransGen (StepC now buffer) (initG t n) g) :
    g.callers.length = n := by
  induction h with
  | refl => simp [initG]
  | tail hsteps hstep ih => rw [stepC_length hstep, ih]

/-- Claim C1: in every complete schedule of `n ≥ 1` concurrent calls to
`refreshTokenIfNeeded` entering while the stored credentials are due for
refresh (the `enter` steps of `StepC` run before the refresh settles, the
check-then-install being synchronous by construction of the embedding),
exactly one refresh network call occurs, all `n` callers finish with the
same outcome — the same refreshed credentials or the same failure, the
refreshed triple being the one stored — and the marker is cleared at the
end on both the success and the failure path. -/
theorem refreshTokenIfNeeded_single_flight
    (now buffer : Int) (t : StravaTokens) (n : Nat) (g : GState)
    (hn : 0 < n)
    (hdue0 : dueForRefresh t now buffer)
    (hrt0 : t.refreshToken ≠ "")
    (hreach : Relation.ReflTransGen (StepC now buffer) (initG t n) g)
    (hdone : ∀ c ∈ g.callers, ∃ r, c = CallerSt.done r) :
    g.shared.calls = 1 ∧ g.shared.marker = none ∧
    ∃ res : RefreshOutcome,
      (∀ c ∈ g.callers, c = CallerSt.done (some res)) ∧
      g.shared.tokens = tokensAfter t res := by
  have hinv := inv_reach hdue0 hrt0 hreach
  have hlen := reach_length hreach
  have hne : g.callers ≠ [] := by
    intro h0
    rw [h0] at hlen
    simp at hlen
    omega
  cases hinv with
  | phaseA hs hcs =>
    obtain ⟨c, hcm⟩ := List.exists_mem_of_ne_nil _ hne
    obtain ⟨r, hr⟩ := hdone c hcm
    rw [hcs c hcm] at hr
    simp at hr
  | phaseB hs hcs hown =>
    have hpos : 0 < g.callers.countP isOwn := by
      unfold countOwn at hown
      omega
    obtain ⟨c, hcm, hco⟩ := List.countP_pos_iff.mp hpos
    obtain ⟨r, hr⟩ := hdone c hcm
    rw [hr] at hco
    simp at hco
  | phaseC res hs hcs hown =>
    have hpos : 0 < g.callers.countP isOwn := by
      unfold countOwn at hown
      omega
    obtain ⟨c, hcm, hco⟩ := List.countP_pos_iff.mp hpos
    obtain ⟨r, hr⟩ := hdone c hcm
    rw [hr] at hco
    simp at hco
  | phaseD res hs hcs =>
    refine ⟨by rw [hs], by rw [hs], res, ?_, by rw [hs]⟩
    intro c hcm
    obtain ⟨r, hr⟩ := hdone c hcm
    rcases hcs c hcm with h | h | h
    · rw [h] at hr; simp at hr
    · rw [h] at hr; simp at hr
    · exact h

/-- Witness for C1: a two-caller schedule — install, join, settle with the
new credentials, installer resumes and clears the marker, waiter resumes —
ends with one network call and both callers holding the same result. -/
theorem refreshTokenIfNeeded_single_flight_witness :
    cFinal.shared.calls = 1 ∧ cFinal.shared.marker = none ∧
    ∃ res : RefreshOutcome,
      (∀ c ∈ cFinal.callers, c = CallerSt.done (some res)) ∧
      cFinal.shared.tokens = tokensAfter cT0 res := by
  have s1 : StepC 1000 600 (initG cT0 2)
      ⟨⟨some cT0, some 0, 1, [], 1⟩, [.awaitingOwn 0, .entry]⟩ :=
    StepC.enterInstall (initG cT0 2) 0 cT0 rfl rfl rfl (by decide) rfl (by decide)
  have s2 : StepC 1000 600 (⟨⟨some cT0, some 0, 1, [], 1⟩, [.awaitingOwn 0, .entry]⟩ : GState)
      ⟨⟨some cT0, some 0, 1, [], 1⟩, [.awaitingOwn 0, .awaitingShared 0]⟩ :=
    StepC.enterAwait _ 1 cT0 0 rfl rfl rfl (by decide) rfl
  have s3 : StepC 1000 600
      (⟨⟨some cT0, some 0, 1, [], 1⟩, [.awaitingOwn 0, .awaitingShared 0]⟩ : GState)
      ⟨⟨some cT1, some 0, 1, [(0, .ok cT1)], 1⟩, [.awaitingOwn 0, .awaitingShared 0]⟩ :=
    StepC.settle _ 0 (.ok cT1) rfl rfl
  have s4 : StepC 1000 600
      (⟨⟨some cT1, some 0, 1, [(0, .ok cT1)], 1⟩, [.awaitingOwn 0, .awaitingShared 0]⟩ : GState)
      ⟨⟨some cT1, none, 1, [(0, .ok cT1)], 1⟩, [.done (some (.ok cT1)), .awaitingShared 0]⟩ :=
    StepC.resumeOwn _ 0 0 (.ok cT1) rfl rfl
  have s5 : StepC 1000 600
      (⟨⟨some cT1, none, 1, [(0, .ok cT1)], 1⟩,
        [.done (some (.ok cT1)), .awaitingShared 0]⟩ : GState) cFinal :=
    StepC.resumeShared _ 1 0 (.ok cT1) rfl rfl
  have hreach : Relation.ReflTransGen (StepC 1000 600) (initG cT0 2) cFinal :=
    Relation.ReflTransGen.tail (Relation.ReflTransGen.tail (Relation.ReflTransGen.tail
      (Relation.ReflTransGen.tail (Relation.ReflTransGen.single s1) s2) s3) s4) s5
  refine refreshTokenIfNeeded_single_flight 1000 600 cT0 2 cFinal (by decide) (by decide)
    (by decide) hreach ?_
  intro c hc
  simp [cFinal] at hc
  subst hc
  exact ⟨_, rfl⟩

end StravaSpec
